import Mathlib

/-!
# Verification of `serlogger.py` (braingeneers/Opto_Incubator)

Shallow embedding of the acquisition-and-buffering loop of `src/serlogger.py`.

The program keeps three global parallel lists (`timePoints`, `tempValues`,
`co2Values`).  On each timer tick, `update_plot` calls `readData(port)`,
which reads one line, strips it, splits it on `','`, and — when the split
yields exactly two fields — appends `'%.2f' % (time.time() - startTime)`
to `timePoints` (as a *string*), then `float(data[0])` to `tempValues`,
then `float(data[1])` to `co2Values`; a `ValueError` from either `float`
call terminates the whole process via `exit()`.  When `csvOut` is true,
one CSV row `[timeVal, data[0], data[1]]` is appended to the log file
after both conversions succeed.

Modelling choices:
* machine floats and wall-clock times are modelled as `ℚ`;
* text is handled as `List Char` where Python slices strings, so that all
  operations are structural and evaluable by the kernel; `str.strip` and
  `str.split(',')` are `trimChars` and `splitOnComma`, with Python's
  semantics (splitting the empty string gives one empty field, splitting
  `","` gives two);
* Python `float(s)` is modelled by `pyFloat?`, a parser for optionally
  signed decimal literals (what the device's `"<temp>,<co2>"` wire format
  produces); what the claims need from it is which strings succeed and
  which fail, and the witnesses only use plain decimals;
* `'%.2f' % x` is modelled by `fmt2Str`, rounding half-up to centi-units
  and printing two forced decimals (the claims do not depend on tie cases);
* `exit()` is modelled by an `exited` flag in the step result; the state
  carried alongside the flag is the state of the process at the moment
  `exit()` runs (the appends already performed are visible in it);
* the CSV file is modelled as a list of rows, each row the triple of
  strings actually passed to `writer.writerow`.
-/

namespace Serlogger

/-- The whitespace characters removed by Python `str.strip()`. -/
def isSpaceChar (c : Char) : Bool :=
  c = ' ' || c = '\t' || c = '\n' || c = '\r' || c = '\x0b' || c = '\x0c'

/-- Python `str.strip()`: drop leading and trailing whitespace. -/
def trimChars (l : List Char) : List Char :=
  ((l.dropWhile isSpaceChar).reverse.dropWhile isSpaceChar).reverse

/-- Python `str.split(',')`: split at every comma; the empty string gives
one empty field, `","` gives two empty fields, the result is never empty. -/
def splitOnComma : List Char → List (List Char)
  | [] => [[]]
  | c :: rest =>
      if c = ',' then [] :: splitOnComma rest
      else
        match splitOnComma rest with
        | [] => [[c]]
        | f :: fs => (c :: f) :: fs

/-- `line.strip().split(',')` of `readData`, on the decoded text line. -/
def splitLine (line : String) : List (List Char) :=
  splitOnComma (trimChars line.data)

/-- Numeric value of a list of decimal digit characters (most significant
first), as `Char.toNat c - 48` accumulated in base 10. -/
def digitsVal (l : List Char) : ℕ :=
  l.foldl (fun acc c => 10 * acc + (c.toNat - 48)) 0

/-- Model of Python `float(s)` restricted to optionally signed decimal
literals: optional surrounding whitespace, optional `+`/`-`, then digits
with at most one `'.'` and at least one digit (`"1."`, `".5"` accepted,
`""`, `"."`, `"bad"` rejected).  Returns `none` where `float` raises
`ValueError`. -/
def pyFloat? (s : List Char) : Option ℚ :=
  let t := trimChars s
  let sgn : ℚ := match t with
    | '-' :: _ => -1
    | _ => 1
  let body : List Char := match t with
    | '-' :: r => r
    | '+' :: r => r
    | r => r
  match body.span (fun c => c != '.') with
  | (ip, []) =>
      if !ip.isEmpty && ip.all Char.isDigit then
        some (sgn * (digitsVal ip : ℚ))
      else none
  | (ip, _ :: fp) =>
      if (!ip.isEmpty || !fp.isEmpty) && ip.all Char.isDigit && fp.all Char.isDigit then
        some (sgn * ((digitsVal ip : ℚ) + (digitsVal fp : ℚ) / (10 : ℚ) ^ fp.length))
      else none

/-- `'%.2f' % q` rounds to centi-units; modelled with round-half-up:
`⌊100q + 1/2⌋`. -/
def centi (q : ℚ) : ℤ := Int.floor (q * 100 + 1 / 2)

/-- Print a natural number as exactly two digits (zero padded). -/
def twoDigitStr (n : ℕ) : String :=
  (if n < 10 then "0" else "") ++ toString n

/-- Render a centi-unit count as a decimal string with two forced
decimal places. -/
def showCenti (n : ℤ) : String :=
  (if n < 0 then "-" else "") ++ toString (n.natAbs / 100) ++ "." ++ twoDigitStr (n.natAbs % 100)

/-- Model of `'%.2f' % q`: round to centi-units, print two decimals. -/
def fmt2Str (q : ℚ) : String := showCenti (centi q)

/-- One CSV row, as passed to `writer.writerow([timeVal, data[0], data[1]])`:
the formatted elapsed time and the two raw (unparsed) fields. -/
abbrev Row := String × String × String

/-- The three global parallel lists of `serlogger.py`
(`timePoints`, `tempValues`, `co2Values`).  `timePoints` holds the
*strings* produced by `'%.2f' % (time.time() - startTime)`, exactly as the
source appends them; the two value lists hold the parsed numbers. -/
structure Store where
  timePoints : List String
  tempValues : List ℚ
  co2Values : List ℚ
deriving DecidableEq, Repr

/-- The empty store, the state at session start. -/
def Store.empty : Store := ⟨[], [], []⟩

/-- Result of one `readData` invocation: the store and CSV log as left by
the call, and whether the process exited (`exit()` on `ValueError`). -/
structure RDResult where
  store : Store
  log : List Row
  exited : Bool
deriving DecidableEq, Repr

/-- Embedding of `readData(port, csvOut=False, debug=True)` (the unused
`debug` parameter is dropped).  `line` is the decoded text of
`port.readline()`; `startTime`/`now` are the values of the global
`startTime` and of `time.time()` at this call.  Faithful to the source
order: the split, the arity check `data and len(data) == 2` (the split is
never empty, so this is the `= 2` check), then inside the `try`:
append `timeVal` to `timePoints`, convert and append `data[0]`, convert
and append `data[1]`, finally the optional CSV row.  A failing conversion
exits with the appends already made still in place. -/
def readData (startTime now : ℚ) (line : String) (csvOut : Bool)
    (st : Store) (log : List Row) : RDResult :=
  match splitLine line with
  | [a, b] =>
      let timeVal := fmt2Str (now - startTime)
      let st1 : Store := { st with timePoints := st.timePoints ++ [timeVal] }
      match pyFloat? a with
      | none => ⟨st1, log, true⟩
      | some tv =>
          let st2 : Store := { st1 with tempValues := st1.tempValues ++ [tv] }
          match pyFloat? b with
          | none => ⟨st2, log, true⟩
          | some cv =>
              let st3 : Store := { st2 with co2Values := st2.co2Values ++ [cv] }
              let log2 := if csvOut then log ++ [(timeVal, ⟨a⟩, ⟨b⟩)] else log
              ⟨st3, log2, false⟩
  | _ => ⟨st, log, false⟩

/-- Embedding of the store-relevant part of `update_plot(frame)`: it calls
`readData(port)` with no `csvOut` override, so `csvOut` is its default
`False`; the rest of `update_plot` only reads the store (see `window`). -/
def update_plot (startTime now : ℚ) (line : String)
    (st : Store) (log : List Row) : RDResult :=
  readData startTime now line false st log

/-- The slice `l[-n:]` used by `update_plot` (`timePoints[-15:]` etc.,
with `n = 15`): the last `n` elements, all of them when fewer. -/
def window (n : ℕ) (l : List α) : List α := l.drop (l.length - n)

/-- What `update_plot` passes to the two `ax.plot` calls: the 15-element
rolling window of each sequence. -/
def renderData (st : Store) : List String × List ℚ × List ℚ :=
  (window 15 st.timePoints, window 15 st.tempValues, window 15 st.co2Values)

/-- A session: the `FuncAnimation` timer fires `update_plot` once per tick;
each tick supplies the clock value `time.time()` and the decoded line.
The fold stops when the process has exited. -/
def runTicks (startTime : ℚ) : List (ℚ × String) → Store → List Row → RDResult
  | [], st, log => ⟨st, log, false⟩
  | (t, line) :: rest, st, log =>
      let r := update_plot startTime t line st log
      if r.exited then r else runTicks startTime rest r.store r.log

/-- The same session loop with CSV logging enabled
(`readData(port, csvOut=True)`), for the claims about the log file. -/
def runTicksCsv (startTime : ℚ) : List (ℚ × String) → Store → List Row → RDResult
  | [], st, log => ⟨st, log, false⟩
  | (t, line) :: rest, st, log =>
      let r := readData startTime t line true st log
      if r.exited then r else runTicksCsv startTime rest r.store r.log

/-- Ghost function: the centi-unit elapsed values appended to `timePoints`
during a session, in append order (one per tick whose line splits into two
fields, the last one being the partial append of a fatal tick). -/
def elapsedCentis (startTime : ℚ) : List (ℚ × String) → List ℤ
  | [] => []
  | (t, line) :: rest =>
      match splitLine line with
      | [a, b] =>
          match pyFloat? a with
          | none => [centi (t - startTime)]
          | some _ =>
              match pyFloat? b with
              | none => [centi (t - startTime)]
              | some _ => centi (t - startTime) :: elapsedCentis startTime rest
      | _ => elapsedCentis startTime rest

/-- Ghost function: the CSV rows of the fully accepted samples of a
session, in append order: the formatted elapsed time and the two raw
string fields of each line that split into two parseable fields. -/
def acceptedRows (startTime : ℚ) : List (ℚ × String) → List Row
  | [] => []
  | (t, line) :: rest =>
      match splitLine line with
      | [a, b] =>
          match pyFloat? a with
          | none => []
          | some _ =>
              match pyFloat? b with
              | none => []
              | some _ => (fmt2Str (t - startTime), ⟨a⟩, ⟨b⟩) :: acceptedRows startTime rest
      | _ => acceptedRows startTime rest

/-!
## Case characterization of `readData`

Core `Rat` arithmetic is `@[irreducible]`; unsealing it lets concrete
instances of the model be checked by `decide`.
-/

unseal Rat.sub Rat.add Rat.mul Rat.inv

/-- If the split does not yield exactly two fields, `readData` is a no-op
that does not exit (the `if` guard fails and the function just returns). -/
theorem readData_eq_of_arity (startTime now : ℚ) (line : String) (csvOut : Bool)
    (st : Store) (log : List Row) (h : (splitLine line).length ≠ 2) :
    readData startTime now line csvOut st log = ⟨st, log, false⟩ := by
  unfold readData
  rcases hs : splitLine line with _ | ⟨a, _ | ⟨b, _ | ⟨c, r⟩⟩⟩
  · rfl
  · rfl
  · exact absurd (by rw [hs]; rfl) h
  · rfl

/-- If the split yields two fields and both parse, `readData` appends one
element to each of the three sequences, appends the CSV row exactly when
`csvOut` is set, and does not exit. -/
theorem readData_eq_of_accept (startTime now : ℚ) (line : String) (a b : List Char)
    (x y : ℚ) (csvOut : Bool) (st : Store) (log : List Row)
    (hs : splitLine line = [a, b]) (ha : pyFloat? a = some x) (hb : pyFloat? b = some y) :
    readData startTime now line csvOut st log =
      ⟨⟨st.timePoints ++ [fmt2Str (now - startTime)],
        st.tempValues ++ [x], st.co2Values ++ [y]⟩,
       if csvOut then log ++ [(fmt2Str (now - startTime), ⟨a⟩, ⟨b⟩)] else log,
       false⟩ := by
  unfold readData
  rw [hs]
  simp only [ha, hb]

/-- If the split yields two fields and the first does not parse,
`readData` exits, having already appended the formatted elapsed time to
`timePoints` but nothing to the other two sequences or the log. -/
theorem readData_eq_of_fatal_fst (startTime now : ℚ) (line : String) (a b : List Char)
    (csvOut : Bool) (st : Store) (log : List Row)
    (hs : splitLine line = [a, b]) (ha : pyFloat? a = none) :
    readData startTime now line csvOut st log =
      ⟨⟨st.timePoints ++ [fmt2Str (now - startTime)], st.tempValues, st.co2Values⟩,
       log, true⟩ := by
  unfold readData
  rw [hs]
  simp only [ha]

/-- If the split yields two fields, the first parses and the second does
not, `readData` exits, having already appended to `timePoints` and
`tempValues` but not to `co2Values` or the log. -/
theorem readData_eq_of_fatal_snd (startTime now : ℚ) (line : String) (a b : List Char)
    (x : ℚ) (csvOut : Bool) (st : Store) (log : List Row)
    (hs : splitLine line = [a, b]) (ha : pyFloat? a = some x) (hb : pyFloat? b = none) :
    readData startTime now line csvOut st log =
      ⟨⟨st.timePoints ++ [fmt2Str (now - startTime)], st.tempValues ++ [x], st.co2Values⟩,
       log, true⟩ := by
  unfold readData
  rw [hs]
  simp only [ha, hb]

/-!
## Claims
-/

/-- C1 (counterexample): on the line `"bad,data"` (two fields, neither
numeric) the process terminates, but the store is *not* unchanged: the
elapsed-time append happens before the failing conversion, so `timePoints`
has grown when `exit()` runs.  This refutes "no sample is appended to any
of the three sequences (the store is unchanged on this error path)". -/
theorem C1_store_changed_on_fatal :
    (readData 0 1 "bad,data" false Store.empty []).exited = true ∧
      (readData 0 1 "bad,data" false Store.empty []).store ≠ Store.empty := by
  constructor
  · decide
  · decide

/-- C1 (amended): for every input line that splits into exactly two fields
where at least one field is not parseable, the process terminates and no
*complete* sample is appended — `co2Values` and the CSV log are unchanged —
but `timePoints` always gains the formatted elapsed time, and `tempValues`
gains the parsed first field when only the second field is bad. -/
theorem C1_fatal_no_complete_sample (startTime now : ℚ) (line : String) (a b : List Char)
    (csvOut : Bool) (st : Store) (log : List Row)
    (hs : splitLine line = [a, b]) (hbad : pyFloat? a = none ∨ pyFloat? b = none) :
    (readData startTime now line csvOut st log).exited = true ∧
      (readData startTime now line csvOut st log).log = log ∧
      (readData startTime now line csvOut st log).store.co2Values = st.co2Values ∧
      (readData startTime now line csvOut st log).store.timePoints =
        st.timePoints ++ [fmt2Str (now - startTime)] ∧
      (readData startTime now line csvOut st log).store.tempValues =
        st.tempValues ++ (pyFloat? a).toList := by
  rcases hpa : pyFloat? a with _ | x
  · rw [readData_eq_of_fatal_fst startTime now line a b csvOut st log hs hpa]
    simp [hpa]
  · rcases hpb : pyFloat? b with _ | y
    · rw [readData_eq_of_fatal_snd startTime now line a b x csvOut st log hs hpa hpb]
      simp [hpa]
    · rcases hbad with h | h
      · exact absurd hpa (by rw [h]; intro hc; cases hc)
      · exact absurd hpb (by rw [h]; intro hc; cases hc)

/-- C1 (witness): the amended theorem applied to the line `"1.0,bad"`. -/
theorem C1_fatal_no_complete_sample_witness :
    (splitLine "1.0,bad" = [['1', '.', '0'], ['b', 'a', 'd']] ∧
       pyFloat? ['b', 'a', 'd'] = none) ∧
      ((readData 0 1 "1.0,bad" false Store.empty []).exited = true ∧
        (readData 0 1 "1.0,bad" false Store.empty []).log = [] ∧
        (readData 0 1 "1.0,bad" false Store.empty []).store.co2Values = [] ∧
        (readData 0 1 "1.0,bad" false Store.empty []).store.timePoints =
          [] ++ [fmt2Str (1 - 0)] ∧
        (readData 0 1 "1.0,bad" false Store.empty []).store.tempValues =
          [] ++ (pyFloat? ['1', '.', '0']).toList) :=
  ⟨⟨by decide, by decide⟩,
    C1_fatal_no_complete_sample 0 1 "1.0,bad" ['1', '.', '0'] ['b', 'a', 'd'] false
      Store.empty [] (by decide) (Or.inr (by decide))⟩

/-- C2 (counterexample): after the invocation of `readData` on the line
`"x,1.0"` the three sequences do *not* have equal lengths: `timePoints` has
one element and `tempValues` none, because the process exits mid-append.
This refutes "after every invocation ... the three parallel sequences have
equal length". -/
theorem C2_unequal_after_fatal :
    (readData 0 2 "x,1.0" false Store.empty []).store.timePoints.length = 1 ∧
      (readData 0 2 "x,1.0" false Store.empty []).store.tempValues.length = 0 := by
  constructor
  · decide
  · decide

/-- C2 (amended): equal length of the three sequences is preserved by
every invocation of `readData` that returns (does not exit the process);
a fatal invocation leaves the sequences unequal, but the process is gone. -/
theorem C2_equal_length_preserved (startTime now : ℚ) (line : String)
    (csvOut : Bool) (st : Store) (log : List Row)
    (h1 : st.timePoints.length = st.tempValues.length)
    (h2 : st.tempValues.length = st.co2Values.length)
    (hret : (readData startTime now line csvOut st log).exited = false) :
    (readData startTime now line csvOut st log).store.timePoints.length =
        (readData startTime now line csvOut st log).store.tempValues.length ∧
      (readData startTime now line csvOut st log).store.tempValues.length =
        (readData startTime now line csvOut st log).store.co2Values.length := by
  rcases hs : splitLine line with _ | ⟨a, _ | ⟨b, _ | ⟨c, r⟩⟩⟩
  · rw [readData_eq_of_arity startTime now line csvOut st log (by rw [hs]; simp)]
    exact ⟨h1, h2⟩
  · rw [readData_eq_of_arity startTime now line csvOut st log
      (by rw [hs]; simp only [List.length_cons, List.length_nil]; omega)]
    exact ⟨h1, h2⟩
  · rcases hpa : pyFloat? a with _ | x
    · rw [readData_eq_of_fatal_fst startTime now line a b csvOut st log hs hpa] at hret
      cases hret
    · rcases hpb : pyFloat? b with _ | y
      · rw [readData_eq_of_fatal_snd startTime now line a b x csvOut st log hs hpa hpb] at hret
        cases hret
      · rw [readData_eq_of_accept startTime now line a b x y csvOut st log hs hpa hpb]
        simp [h1, h2]
  · rw [readData_eq_of_arity startTime now line csvOut st log
      (by rw [hs]; simp only [List.length_cons, List.length_nil]; omega)]
    exact ⟨h1, h2⟩

/-- C2 (witness): the amended theorem applied to the valid line
`"22.50,1.20"` on the empty store. -/
theorem C2_equal_length_preserved_witness :
    (Store.empty.timePoints.length = Store.empty.tempValues.length ∧
       Store.empty.tempValues.length = Store.empty.co2Values.length ∧
       (readData 0 2 "22.50,1.20" false Store.empty []).exited = false) ∧
      ((readData 0 2 "22.50,1.20" false Store.empty []).store.timePoints.length =
          (readData 0 2 "22.50,1.20" false Store.empty []).store.tempValues.length ∧
        (readData 0 2 "22.50,1.20" false Store.empty []).store.tempValues.length =
          (readData 0 2 "22.50,1.20" false Store.empty []).store.co2Values.length) :=
  ⟨⟨by decide, by decide, by decide⟩,
    C2_equal_length_preserved 0 2 "22.50,1.20" false Store.empty []
      (by decide) (by decide) (by decide)⟩

/-- C3: for every input line that splits into exactly two fields, both
parseable, each of the three sequences grows by exactly one element, the
process continues, and if the three lengths were equal before the append
they are equal after it. -/
theorem C3_accept_grows_by_one (startTime now : ℚ) (line : String) (a b : List Char)
    (x y : ℚ) (csvOut : Bool) (st : Store) (log : List Row)
    (hs : splitLine line = [a, b]) (ha : pyFloat? a = some x) (hb : pyFloat? b = some y) :
    (readData startTime now line csvOut st log).store.timePoints.length =
        st.timePoints.length + 1 ∧
      (readData startTime now line csvOut st log).store.tempValues.length =
        st.tempValues.length + 1 ∧
      (readData startTime now line csvOut st log).store.co2Values.length =
        st.co2Values.length + 1 ∧
      (readData startTime now line csvOut st log).exited = false ∧
      (st.timePoints.length = st.tempValues.length →
        st.tempValues.length = st.co2Values.length →
        (readData startTime now line csvOut st log).store.timePoints.length =
            (readData startTime now line csvOut st log).store.tempValues.length ∧
          (readData startTime now line csvOut st log).store.tempValues.length =
            (readData startTime now line csvOut st log).store.co2Values.length) := by
  rw [readData_eq_of_accept startTime now line a b x y csvOut st log hs ha hb]
  simp
  omega

/-- C3 (witness): the theorem applied to the line `"22.50,1.20"`. -/
theorem C3_accept_grows_by_one_witness :
    (splitLine "22.50,1.20" = [['2', '2', '.', '5', '0'], ['1', '.', '2', '0']] ∧
       pyFloat? ['2', '2', '.', '5', '0'] = some (45 / 2) ∧
       pyFloat? ['1', '.', '2', '0'] = some (6 / 5)) ∧
      ((readData 0 2 "22.50,1.20" true Store.empty []).store.timePoints.length = 0 + 1 ∧
        (readData 0 2 "22.50,1.20" true Store.empty []).store.tempValues.length = 0 + 1 ∧
        (readData 0 2 "22.50,1.20" true Store.empty []).store.co2Values.length = 0 + 1 ∧
        (readData 0 2 "22.50,1.20" true Store.empty []).exited = false ∧
        ((0 : ℕ) = 0 → (0 : ℕ) = 0 →
          (readData 0 2 "22.50,1.20" true Store.empty []).store.timePoints.length =
              (readData 0 2 "22.50,1.20" true Store.empty []).store.tempValues.length ∧
            (readData 0 2 "22.50,1.20" true Store.empty []).store.tempValues.length =
              (readData 0 2 "22.50,1.20" true Store.empty []).store.co2Values.length)) :=
  ⟨⟨by decide, by decide, by decide⟩,
    C3_accept_grows_by_one 0 2 "22.50,1.20" ['2', '2', '.', '5', '0'] ['1', '.', '2', '0']
      (45 / 2) (6 / 5) true Store.empty [] (by decide) (by decide) (by decide)⟩

/-- C4: for every input line whose split yields a field count other than
two, `readData` is a complete no-op that does not exit: same store, same
log, process continues. -/
theorem C4_arity_silent_drop (startTime now : ℚ) (line : String) (csvOut : Bool)
    (st : Store) (log : List Row) (h : (splitLine line).length ≠ 2) :
    readData startTime now line csvOut st log = ⟨st, log, false⟩ :=
  readData_eq_of_arity startTime now line csvOut st log h

/-- C4 (witness): the theorem applied to the one-field line `"abc"` and
the three-field line `"1,2,3"`. -/
theorem C4_arity_silent_drop_witness :
    ((splitLine "abc").length ≠ 2 ∧
        readData 0 1 "abc" true Store.empty [] = ⟨Store.empty, [], false⟩) ∧
      (splitLine "1,2,3").length ≠ 2 ∧
        readData 0 1 "1,2,3" true Store.empty [] = ⟨Store.empty, [], false⟩ :=
  ⟨⟨by decide, C4_arity_silent_drop 0 1 "abc" true Store.empty [] (by decide)⟩,
    by decide, C4_arity_silent_drop 0 1 "1,2,3" true Store.empty [] (by decide)⟩

/-- C8: for every accepted sample, the stored elapsed-time entry is the
value `now - startTime` (current time minus session start) formatted to
two decimal places, appended at the end of `timePoints`. -/
theorem C8_elapsed_time_format (startTime now : ℚ) (line : String) (a b : List Char)
    (x y : ℚ) (csvOut : Bool) (st : Store) (log : List Row)
    (hs : splitLine line = [a, b]) (ha : pyFloat? a = some x) (hb : pyFloat? b = some y) :
    (readData startTime now line csvOut st log).store.timePoints =
      st.timePoints ++ [fmt2Str (now - startTime)] := by
  rw [readData_eq_of_accept startTime now line a b x y csvOut st log hs ha hb]

/-- C8 (witness): the theorem applied to the line `"22.50,1.20"` at
`now = 3.7`, `startTime = 0.5`: the stored entry is `"3.20"`. -/
theorem C8_elapsed_time_format_witness :
    (splitLine "22.50,1.20" = [['2', '2', '.', '5', '0'], ['1', '.', '2', '0']] ∧
       fmt2Str ((37 : ℚ) / 10 - 1 / 2) = "3.20") ∧
      (readData (1 / 2) (37 / 10) "22.50,1.20" false Store.empty []).store.timePoints =
        [] ++ [fmt2Str ((37 : ℚ) / 10 - 1 / 2)] :=
  ⟨⟨by decide, by decide⟩,
    C8_elapsed_time_format (1 / 2) (37 / 10) "22.50,1.20"
      ['2', '2', '.', '5', '0'] ['1', '.', '2', '0'] (45 / 2) (6 / 5) false
      Store.empty [] (by decide) (by decide) (by decide)⟩

/-- C10: a line with exactly one comma and an empty field on either side
splits into two fields, the empty field fails the conversion, and the
process terminates; the elapsed-time append shows the line went down the
fatal-conversion path rather than the silent-drop path. -/
theorem C10_empty_field_fatal (startTime now : ℚ) (line : String) (a b : List Char)
    (csvOut : Bool) (st : Store) (log : List Row)
    (hs : splitLine line = [a, b]) (he : a = [] ∨ b = []) :
    (readData startTime now line csvOut st log).exited = true ∧
      (readData startTime now line csvOut st log).store.timePoints =
        st.timePoints ++ [fmt2Str (now - startTime)] := by
  have hnil : pyFloat? [] = none := by decide
  rcases hpa : pyFloat? a with _ | x
  · rw [readData_eq_of_fatal_fst startTime now line a b csvOut st log hs hpa]
    exact ⟨rfl, rfl⟩
  · rcases hpb : pyFloat? b with _ | y
    · rw [readData_eq_of_fatal_snd startTime now line a b x csvOut st log hs hpa hpb]
      exact ⟨rfl, rfl⟩
    · rcases he with h | h
      · rw [h, hnil] at hpa; cases hpa
      · rw [h, hnil] at hpb; cases hpb

/-- C10 (witness): the theorem applied to the line `","`. -/
theorem C10_empty_field_fatal_witness :
    (splitLine "," = [[], []]) ∧
      (readData 0 1 "," false Store.empty []).exited = true ∧
        (readData 0 1 "," false Store.empty []).store.timePoints =
          [] ++ [fmt2Str (1 - 0)] :=
  ⟨by decide,
    C10_empty_field_fatal 0 1 "," [] [] false Store.empty [] (by decide) (Or.inl rfl)⟩

/-- With `csvOut = False` (the default, used by `update_plot`), `readData`
never touches the log, on any of its paths. -/
theorem readData_false_log (startTime now : ℚ) (line : String) (st : Store) (log : List Row) :
    (readData startTime now line false st log).log = log := by
  rcases hs : splitLine line with _ | ⟨a, _ | ⟨b, _ | ⟨c, r⟩⟩⟩
  · rw [readData_eq_of_arity startTime now line false st log (by rw [hs]; simp)]
  · rw [readData_eq_of_arity startTime now line false st log
      (by rw [hs]; simp only [List.length_cons, List.length_nil]; omega)]
  · rcases hpa : pyFloat? a with _ | x
    · rw [readData_eq_of_fatal_fst startTime now line a b false st log hs hpa]
    · rcases hpb : pyFloat? b with _ | y
      · rw [readData_eq_of_fatal_snd startTime now line a b x false st log hs hpa hpb]
      · rw [readData_eq_of_accept startTime now line a b x y false st log hs hpa hpb]
        simp
  · rw [readData_eq_of_arity startTime now line false st log
      (by rw [hs]; simp only [List.length_cons, List.length_nil]; omega)]

/-- C9: the live loop (`update_plot` on every tick, which passes no
`csvOut` override, so `readData` runs with its default `False`) never
writes a CSV row: the log is unchanged over any session, on every path
including the fatal ones. -/
theorem C9_live_loop_never_logs (startTime : ℚ) (ticks : List (ℚ × String))
    (st : Store) (log : List Row) :
    (runTicks startTime ticks st log).log = log := by
  induction ticks generalizing st log with
  | nil => rfl
  | cons p rest ih =>
      obtain ⟨t, line⟩ := p
      simp only [runTicks, update_plot]
      split
      · exact readData_false_log startTime t line st log
      · rw [ih, readData_false_log]

/-- C5: with logging enabled, a session appends to the log exactly the
rows of `acceptedRows` — one row per fully accepted sample, in append
order, holding the formatted elapsed time and the two raw string fields —
and the number of samples in the store grows by exactly the number of
rows logged. -/
theorem C5_csv_rows_match_samples (startTime : ℚ) (ticks : List (ℚ × String))
    (st : Store) (log : List Row) :
    (runTicksCsv startTime ticks st log).log = log ++ acceptedRows startTime ticks ∧
      (runTicksCsv startTime ticks st log).store.co2Values.length =
        st.co2Values.length + (acceptedRows startTime ticks).length := by
  induction ticks generalizing st log with
  | nil => simp [runTicksCsv, acceptedRows]
  | cons p rest ih =>
      obtain ⟨t, line⟩ := p
      simp only [runTicksCsv, acceptedRows]
      rcases hs : splitLine line with _ | ⟨a, _ | ⟨b, _ | ⟨c, r⟩⟩⟩
      · rw [readData_eq_of_arity startTime t line true st log (by rw [hs]; simp)]
        simpa using ih st log
      · rw [readData_eq_of_arity startTime t line true st log
          (by rw [hs]; simp only [List.length_cons, List.length_nil]; omega)]
        simpa using ih st log
      · rcases hpa : pyFloat? a with _ | x
        · rw [readData_eq_of_fatal_fst startTime t line a b true st log hs hpa]
          simp [hpa]
        · rcases hpb : pyFloat? b with _ | y
          · rw [readData_eq_of_fatal_snd startTime t line a b x true st log hs hpa hpb]
            simp [hpa, hpb]
          · rw [readData_eq_of_accept startTime t line a b x y true st log hs hpa hpb]
            have h := ih ⟨st.timePoints ++ [fmt2Str (t - startTime)],
              st.tempValues ++ [x], st.co2Values ++ [y]⟩
              (log ++ [(fmt2Str (t - startTime), ⟨a⟩, ⟨b⟩)])
            simp only [hpa, hpb]
            rw [if_neg Bool.false_ne_true]
            simp only [if_true]
            refine ⟨?_, ?_⟩
            · rw [h.1]
              simp
            · rw [h.2]
              simp only [List.length_append, List.length_cons, List.length_nil]
              omega
      · rw [readData_eq_of_arity startTime t line true st log
          (by rw [hs]; simp only [List.length_cons, List.length_nil]; omega)]
        simpa using ih st log

/-- C6: the rendering window operation `l[-n:]` returns exactly
`min n l.length` elements, and they form a suffix of the sequence — the
most recently appended elements in their original insertion order. -/
theorem C6_window_is_min_suffix (α : Type) (n : ℕ) (l : List α) :
    (window n l).length = min n l.length ∧ window n l <:+ l := by
  constructor
  · simp only [window, List.length_drop]
    omega
  · exact List.drop_suffix _ _

/-- `centi` (the value `'%.2f'` rounds to) is monotone. -/
theorem centi_mono {q r : ℚ} (h : q ≤ r) : centi q ≤ centi r := by
  unfold centi
  exact Int.floor_le_floor (by linarith)

/-- The `timePoints` of a session run are exactly the formatted versions
of the ghost list `elapsedCentis`, in order. -/
theorem runTicks_timePoints (startTime : ℚ) (ticks : List (ℚ × String))
    (st : Store) (log : List Row) :
    (runTicks startTime ticks st log).store.timePoints =
      st.timePoints ++ (elapsedCentis startTime ticks).map showCenti := by
  induction ticks generalizing st log with
  | nil => simp [runTicks, elapsedCentis]
  | cons p rest ih =>
      obtain ⟨t, line⟩ := p
      simp only [runTicks, update_plot, elapsedCentis]
      rcases hs : splitLine line with _ | ⟨a, _ | ⟨b, _ | ⟨c, r⟩⟩⟩
      · rw [readData_eq_of_arity startTime t line false st log (by rw [hs]; simp)]
        simpa [hs] using ih st log
      · rw [readData_eq_of_arity startTime t line false st log
          (by rw [hs]; simp only [List.length_cons, List.length_nil]; omega)]
        simpa [hs] using ih st log
      · rcases hpa : pyFloat? a with _ | x
        · rw [readData_eq_of_fatal_fst startTime t line a b false st log hs hpa]
          simp [hs, hpa, fmt2Str]
        · rcases hpb : pyFloat? b with _ | y
          · rw [readData_eq_of_fatal_snd startTime t line a b x false st log hs hpa hpb]
            simp [hs, hpa, hpb, fmt2Str]
          · rw [readData_eq_of_accept startTime t line a b x y false st log hs hpa hpb]
            have h := ih ⟨st.timePoints ++ [fmt2Str (t - startTime)],
              st.tempValues ++ [x], st.co2Values ++ [y]⟩ log
            simp only [hs, hpa, hpb, if_neg Bool.false_ne_true] at h ⊢
            rw [h]
            simp [fmt2Str]
      · rw [readData_eq_of_arity startTime t line false st log
          (by rw [hs]; simp only [List.length_cons, List.length_nil]; omega)]
        simpa [hs] using ih st log

/-- `elapsedCentis` picks a subsequence of the per-tick rounded elapsed
values. -/
theorem elapsedCentis_sublist (startTime : ℚ) (ticks : List (ℚ × String)) :
    List.Sublist (elapsedCentis startTime ticks)
      (ticks.map (fun p => centi (p.1 - startTime))) := by
  induction ticks with
  | nil => simp [elapsedCentis]
  | cons p rest ih =>
      obtain ⟨t, line⟩ := p
      simp only [elapsedCentis, List.map_cons]
      rcases hs : splitLine line with _ | ⟨a, _ | ⟨b, _ | ⟨c, r⟩⟩⟩ <;> simp only [hs]
      · exact ih.cons _
      · exact ih.cons _
      · rcases hpa : pyFloat? a with _ | x <;> simp only [hpa]
        · exact (List.nil_sublist _).cons₂ _
        · rcases hpb : pyFloat? b with _ | y <;> simp only [hpb]
          · exact (List.nil_sublist _).cons₂ _
          · exact ih.cons₂ _
      · exact ih.cons _

/-- C7: if the clock values read at the ticks of a session are
non-decreasing, then the elapsed-time values appended to the store are
non-decreasing in append order, and the stored `timePoints` of the
session are exactly those values formatted to two decimal places. -/
theorem C7_elapsed_monotone (startTime : ℚ) (ticks : List (ℚ × String))
    (hclock : List.Chain' (· ≤ ·) (ticks.map Prod.fst)) :
    List.Chain' (· ≤ ·) (elapsedCentis startTime ticks) ∧
      (runTicks startTime ticks Store.empty []).store.timePoints =
        (elapsedCentis startTime ticks).map showCenti := by
  constructor
  · have h1 : List.Chain' (fun p q : ℚ × String => p.1 ≤ q.1) ticks :=
      (List.chain'_map Prod.fst).1 hclock
    have h2 : List.Chain'
        (fun p q : ℚ × String => centi (p.1 - startTime) ≤ centi (q.1 - startTime)) ticks :=
      h1.imp fun p q h => centi_mono (by linarith)
    have h3 : List.Chain' (· ≤ ·) (ticks.map fun p => centi (p.1 - startTime)) :=
      (List.chain'_map _).2 h2
    exact h3.sublist (elapsedCentis_sublist startTime ticks)
  · simpa using runTicks_timePoints startTime ticks Store.empty []

/-- C7 (witness): the theorem applied to a two-tick session with clock
values 1 and 2. -/
theorem C7_elapsed_monotone_witness :
    List.Chain' (· ≤ ·) (([((1 : ℚ), "20,1"), (2, "21,2")]).map Prod.fst) ∧
      (List.Chain' (· ≤ ·) (elapsedCentis 0 [((1 : ℚ), "20,1"), (2, "21,2")]) ∧
        (runTicks 0 [((1 : ℚ), "20,1"), (2, "21,2")] Store.empty []).store.timePoints =
          (elapsedCentis 0 [((1 : ℚ), "20,1"), (2, "21,2")]).map showCenti) :=
  ⟨by norm_num [List.chain'_cons],
    C7_elapsed_monotone 0 [((1 : ℚ), "20,1"), (2, "21,2")]
      (by norm_num [List.chain'_cons])⟩

end Serlogger
